import Mathlib

/-!
Verification of the SysYTest compiler test harness (`src/tester.py`,
`src/models.py`, `src/utils.py`) against its natural-language specification.

The Python code is shallowly embedded: external process invocations are
modelled by an oracle (`ProcResult` values supplied per invocation), the
per-worker slot directory state by an explicit list of existing file paths
(`FS`), and the thread-pool scheduler by an explicit event-trace semantics.
-/

namespace SysYTest

/-! ## Data model (`src/models.py`) -/

/-- `TestStatus` from `src/models.py`. -/
inductive TestStatus where
  | passed
  | failed
  | compileError
  | runtimeError
  | timeout
  | skipped
deriving DecidableEq, Repr

/-- `TestResult` from `src/models.py`: status, message, and the optional
actual/expected output fields (all optional fields default to `None`). -/
structure TestResult where
  status : TestStatus
  message : String := ""
  actual_output : Option String := none
  expected_output : Option String := none
  compile_time_ms : Option Int := none
  cycle : Option Int := none
  cycle_breakdown : Option String := none
deriving DecidableEq, Repr

/-- `TestCase` from `src/models.py` (paths are modelled as strings). -/
structure TestCase where
  name : String
  testfile : String
  input_file : Option String
deriving DecidableEq, Repr

/-- `TestTask` from `src/tester.py`: a case paired with its worker slot id. -/
structure TestTask where
  case : TestCase
  worker_id : Nat
deriving DecidableEq, Repr

/-! ## Output comparator

`src/tester.py` imports `compare_outputs` and the GUI imports
`normalize_output` from `src/utils.py`, a file of the repository that is not
part of the provided sources; both are modelled from the spec below. -/

/-- Line-ending normalization on character lists: `"\r\n"` and a lone `"\r"`
both become `"\n"` (part of the spec-modelled `normalize_output`). -/
def normEol : List Char → List Char
  | [] => []
  | [c] => if c = '\r' then ['\n'] else [c]
  | c :: d :: rest =>
    if c = '\r' then
      if d = '\n' then '\n' :: normEol rest else '\n' :: normEol (d :: rest)
    else c :: normEol (d :: rest)

/-- Dropping trailing newline characters, i.e. trailing blank lines after
line-ending normalization (part of the spec-modelled `normalize_output`). -/
def rstripNewlines (cs : List Char) : List Char :=
  (cs.reverse.dropWhile (fun c => c = '\n')).reverse

/-- Modelled from the spec: `normalize_output` from the missing
`src/utils.py` "strips insignificant differences (trailing blank lines,
line-ending style)": line endings are normalized to `"\n"` and trailing
blank lines are removed. -/
def normalize_output (s : String) : String :=
  String.mk (rstripNewlines (normEol s.data))

/-- Modelled from the spec: `compare_outputs` from the missing
`src/utils.py` is `equal(a,b) = normalize(a) == normalize(b)`. -/
def compare_outputs (a b : String) : Bool :=
  normalize_output a == normalize_output b

theorem mem_normEol_ne_cr : ∀ cs : List Char, '\r' ∉ normEol cs
  | [] => by simp [normEol]
  | [c] => by
    by_cases h : c = '\r'
    · simp [normEol, h]
    · simp only [normEol, if_neg h, List.mem_singleton]
      exact fun hh => h hh.symm
  | c :: d :: rest => by
    have ih1 := mem_normEol_ne_cr rest
    have ih2 := mem_normEol_ne_cr (d :: rest)
    by_cases hc : c = '\r'
    · by_cases hd : d = '\n'
      · simp only [normEol, if_pos hc, if_pos hd, List.mem_cons]
        rintro (h | h)
        · exact absurd h (by decide)
        · exact ih1 h
      · simp only [normEol, if_pos hc, if_neg hd, List.mem_cons]
        rintro (h | h)
        · exact absurd h (by decide)
        · exact ih2 h
    · simp only [normEol, if_neg hc, List.mem_cons]
      rintro (h | h)
      · exact hc h.symm
      · exact ih2 h

theorem normEol_of_no_cr : ∀ cs : List Char, '\r' ∉ cs → normEol cs = cs
  | [] => fun _ => by simp [normEol]
  | [c] => fun h => by
    have hc : ¬c = '\r' := fun hh => h (by simp [hh])
    simp [normEol, hc]
  | c :: d :: rest => fun h => by
    have hc : ¬c = '\r' := fun hh => h (by simp [hh])
    have h2 : '\r' ∉ d :: rest := fun hm => h (List.mem_cons_of_mem _ hm)
    simp only [normEol, if_neg hc]
    rw [normEol_of_no_cr (d :: rest) h2]

theorem rstripNewlines_idem (cs : List Char) :
    rstripNewlines (rstripNewlines cs) = rstripNewlines cs := by
  simp [rstripNewlines, List.dropWhile_idempotent]

theorem mem_rstripNewlines {c : Char} {cs : List Char}
    (h : c ∈ rstripNewlines cs) : c ∈ cs := by
  simp only [rstripNewlines, List.mem_reverse] at h
  exact List.mem_reverse.mp ((List.dropWhile_suffix _).sublist.mem h)

/-- `normalize_output` is idempotent. -/
theorem normalize_output_idem (s : String) :
    normalize_output (normalize_output s) = normalize_output s := by
  unfold normalize_output
  have hdata : (String.mk (rstripNewlines (normEol s.data))).data
      = rstripNewlines (normEol s.data) := rfl
  rw [hdata]
  have hnocr : '\r' ∉ rstripNewlines (normEol s.data) := fun hm =>
    mem_normEol_ne_cr s.data (mem_rstripNewlines hm)
  rw [normEol_of_no_cr _ hnocr, rstripNewlines_idem]

theorem compare_outputs_iff (a b : String) :
    compare_outputs a b = true ↔ normalize_output a = normalize_output b := by
  simp [compare_outputs]

theorem compare_outputs_refl (a : String) : compare_outputs a a = true := by
  simp [compare_outputs]

theorem compare_outputs_symm (a b : String) :
    compare_outputs a b = compare_outputs b a := by
  unfold compare_outputs
  by_cases h : normalize_output a = normalize_output b
  · rw [h]
  · rw [beq_eq_false_iff_ne.mpr h, beq_eq_false_iff_ne.mpr (Ne.symm h)]

/-! ## Slot-directory filesystem model

Each worker slot is a directory; we track the set of existing file paths.
External programs' effects on it are supplied by the stage oracles. -/

/-- The set of files currently existing in the slot directories, as a list
of paths. -/
def FS : Type := List String

/-- `Path.exists()`. -/
def FS.has (fs : FS) (p : String) : Bool :=
  List.any fs (fun q => q == p)

/-- Creating / overwriting a file (`open(p, "w")`). -/
def FS.write (fs : FS) (p : String) : FS :=
  p :: fs

/-- `Path.unlink()`. -/
def FS.remove (fs : FS) (p : String) : FS :=
  List.filter (fun q => !(q == p)) fs

theorem FS.has_write (fs : FS) (p : String) : (fs.write p).has p = true := by
  simp [FS.has, FS.write]

theorem FS.has_remove_self (fs : FS) (p : String) :
    (fs.remove p).has p = false := by
  rw [show ((fs.remove p).has p = false) ↔ ¬((fs.remove p).has p = true) by
    simp]
  simp only [FS.has, FS.remove, List.any_eq_true, List.mem_filter]
  rintro ⟨x, ⟨_, hx⟩, hpx⟩
  rw [beq_iff_eq] at hpx
  subst hpx
  simp at hx

theorem FS.has_remove_mono {fs : FS} {p q : String}
    (h : (fs.remove q).has p = true) : fs.has p = true := by
  simp only [FS.has, FS.remove, List.any_eq_true, List.mem_filter] at h ⊢
  obtain ⟨x, hx, hpx⟩ := h
  exact ⟨x, hx.1, hpx⟩

/-! ## External process oracle

Every `subprocess.run` call in `src/tester.py` either completes with an
exit code and captured stdout/stderr, raises `TimeoutExpired`, raises
`FileNotFoundError`, or raises some other exception; the oracle supplies
which of these happens for a given invocation. -/

/-- Outcome of one `subprocess.run` invocation. -/
inductive ProcResult where
  | completed (returncode : Int) (stdout stderr : String)
  | timedOut
  | fileNotFound (filename : String)
  | failed (msg : String)
deriving DecidableEq, Repr

/-- Oracle for one candidate-compiler invocation (`_run_compiler`): the
process outcome and whether the invocation creates `mips.txt` in the slot. -/
structure CompilerStage where
  proc : ProcResult
  writesMips : Bool
deriving DecidableEq, Repr

/-- Oracle for one reference run (`_run_gcc`): the g++ compile outcome,
whether compilation creates the temporary executable, and the outcome of
running it. -/
structure GccStage where
  compileProc : ProcResult
  writesExe : Bool
  runProc : ProcResult
deriving DecidableEq, Repr

/-- Oracle for one whole-case pipeline run (`CompilerTester.test`). -/
structure CaseEnv where
  testfileExists : Bool
  compiler : CompilerStage
  mars : ProcResult
  gcc : GccStage
deriving DecidableEq, Repr

/-! ## Slot paths (`src/tester.py`) -/

/-- `CompilerTester._get_worker_dir`: the worker's isolated directory. -/
def workerDir (worker_id : Nat) : String :=
  ".tmp/worker_" ++ toString worker_id

def testfilePath (wd : String) : String := wd ++ "/testfile.txt"

def mipsPath (wd : String) : String := wd ++ "/mips.txt"

def tmpSrcPath (wd : String) : String := wd ++ "/tmp_test.c"

def tmpExePath (wd : String) : String := wd ++ "/tmp_test.exe"

/-! ## Pipeline stages (`src/tester.py`) -/

/-- The `subprocess.run` part of `_run_compiler`: launches the candidate
compiler in the slot, which may create `mips.txt`; maps the outcome exactly
as the Python `try`/`except` does.  Returns `((success, message), fs,
number of process invocations)`. -/
def runCompilerProc (stage : CompilerStage) (wd : String) (fs : FS) :
    (Bool × String) × FS × Nat :=
  let fs := if stage.writesMips then fs.write (mipsPath wd) else fs
  match stage.proc with
  | .completed rc out err =>
      if rc ≠ 0 then ((false, "编译器错误:\n" ++ err ++ "\n" ++ out), fs, 1)
      else if !(fs.has (mipsPath wd)) then ((false, "编译器未生成mips.txt"), fs, 1)
      else ((true, ""), fs, 1)
  | .timedOut => ((false, "编译超时"), fs, 1)
  | .fileNotFound f => ((false, f), fs, 1)
  | .failed msg => ((false, msg), fs, 1)

/-- The prelude of `_run_compiler`: write the case source to
`testfile.txt` and delete any stale `mips.txt` left in the slot. -/
def prepFS (fs : FS) (wd : String) : FS :=
  let fs := fs.write (testfilePath wd)
  if fs.has (mipsPath wd) then fs.remove (mipsPath wd) else fs

/-- `CompilerTester._run_compiler`: writes `testfile.txt` into the slot,
deletes any stale `mips.txt`, checks that the built artifact exists for the
configured language, and invokes the candidate compiler. -/
def run_compiler (lang : String) (jarExists exeExists : Bool)
    (stage : CompilerStage) (wd : String) (fs : FS) :
    (Bool × String) × FS × Nat :=
  let fs := prepFS fs wd
  if lang == "java" then
    if !jarExists then ((false, "Compiler.jar不存在，请先编译项目"), fs, 0)
    else runCompilerProc stage wd fs
  else
    if !exeExists then ((false, "Compiler.exe不存在，请先编译项目"), fs, 0)
    else runCompilerProc stage wd fs

/-- `CompilerTester._run_mars`: runs the Mars simulator on `mips.txt`; a
completed run returns its stdout (the exit code is ignored), a timeout or
exception returns `None` with a message. -/
def run_mars (proc : ProcResult) : (Option String × String) × Nat :=
  match proc with
  | .completed _ out _ => ((some out, ""), 1)
  | .timedOut => ((none, "Mars执行超时"), 1)
  | .fileNotFound f => ((none, f), 1)
  | .failed msg => ((none, msg), 1)

/-- `CompilerTester._run_gcc`: writes the shimmed reference source to
`tmp_test.c`, compiles it with g++ to `tmp_test.exe`, runs the executable,
and in the `finally` block deletes both temporary files on every exit
path. -/
def run_gcc (stage : GccStage) (wd : String) (fs : FS) :
    (Option String × String) × FS × Nat :=
  let tmpSrc := tmpSrcPath wd
  let tmpExe := tmpExePath wd
  let fs := fs.write tmpSrc
  let body : (Option String × String) × FS × Nat :=
    match stage.compileProc with
    | .completed rc _ err =>
        let fs := if stage.writesExe then fs.write tmpExe else fs
        if rc ≠ 0 then ((none, "g++编译失败:\n" ++ err), fs, 1)
        else
          match stage.runProc with
          | .completed _ out _ => ((some out, ""), fs, 2)
          | .timedOut => ((none, "g++执行超时"), fs, 2)
          | .fileNotFound _ =>
              ((none, "找不到g++，请确保已安装或在config.yaml中配置路径"), fs, 2)
          | .failed msg => ((none, msg), fs, 2)
    | .timedOut => ((none, "g++执行超时"), fs, 1)
    | .fileNotFound _ =>
        ((none, "找不到g++，请确保已安装或在config.yaml中配置路径"), fs, 1)
    | .failed msg => ((none, msg), fs, 1)
  (body.1, ((body.2.1).remove tmpSrc).remove tmpExe, body.2.2)

/-- `CompilerTester._is_compiler_ready`: `Compiler.jar` must exist for a
Java project, `Compiler.exe` otherwise. -/
def isCompilerReady (lang : String) (jarExists exeExists : Bool) : Bool :=
  if lang == "java" then jarExists else exeExists

/-- Shorthand for a `TestResult` with only status and message set. -/
def mkRes (s : TestStatus) (m : String) : TestResult :=
  { status := s, message := m }

/-- `CompilerTester.test`: the four-stage pipeline for one case.  Returns
the `TestResult`, the final slot filesystem, and the number of external
process invocations. -/
def test (lang : String) (jarExists exeExists : Bool) (ce : CaseEnv)
    (testfile : String) (worker_id : Nat) (fs : FS) :
    TestResult × FS × Nat :=
  if !ce.testfileExists then
    (mkRes .skipped ("找不到测试文件: " ++ testfile), fs, 0)
  else if !(isCompilerReady lang jarExists exeExists) then
    (mkRes .skipped "请先编译项目", fs, 0)
  else
    let wd := workerDir worker_id
    let step1 := run_compiler lang jarExists exeExists ce.compiler wd fs
    let ok := step1.1.1
    let msg := step1.1.2
    let fs1 := step1.2.1
    let n1 := step1.2.2
    if !ok then (mkRes .compileError msg, fs1, n1)
    else
      let step2 := run_mars ce.mars
      let n2 := step2.2
      match step2.1.1 with
      | none => (mkRes .runtimeError ("Mars运行失败: " ++ step2.1.2), fs1, n1 + n2)
      | some marsOut =>
        let step3 := run_gcc ce.gcc wd fs1
        let fs3 := step3.2.1
        let n3 := step3.2.2
        match step3.1.1 with
        | none =>
            (mkRes .skipped ("g++运行失败: " ++ step3.1.2), fs3, n1 + n2 + n3)
        | some gccOut =>
            if compare_outputs marsOut gccOut then
              (mkRes .passed "", fs3, n1 + n2 + n3)
            else
              ({ status := .failed, message := "输出不匹配",
                 actual_output := some marsOut,
                 expected_output := some gccOut }, fs3, n1 + n2 + n3)

/-! ## Parallel run (`CompilerTester.test_parallel`) -/

/-- Python's `/` on numbers: errors (raises `ZeroDivisionError`) on a zero
denominator, modelled as `none`. -/
def pyDiv (a b : ℚ) : Option ℚ :=
  if b = 0 then none else some (a / b)

/-- The worker-slot pre-assignment in `test_parallel`:
`tasks = [TestTask(case, i % max_workers) for i, case in enumerate(cases)]`. -/
def mkTasks (cases : List TestCase) (max_workers : Nat) : List TestTask :=
  cases.enum.map (fun p => ⟨p.2, p.1 % max_workers⟩)

/-- Placeholder task (never reached for in-range indices). -/
def dummyTask : TestTask :=
  ⟨⟨"", "", none⟩, 0⟩

/-- The `for future in as_completed(futures)` loop of `test_parallel`,
which runs in the calling thread: futures complete in the order given by
`order` (a permutation of the task indices); for each one the result is
recorded and the callback `(case, result, completed / total * 100)` fires.
Accumulates `(results, callbacks, process count)`; `none` models an
uncaught `ZeroDivisionError`. -/
def runCompleted (lang : String) (jarExists exeExists : Bool)
    (env : Nat → CaseEnv) (fs0 : Nat → FS) (tasks : List TestTask)
    (total : Nat) :
    List Nat → Nat →
    Option (List (TestCase × TestResult) × List (TestCase × TestResult × ℚ) × Nat)
  | [], _ => some ([], [], 0)
  | i :: rest, completed =>
    let t := tasks.getD i dummyTask
    let out := test lang jarExists exeExists (env i) t.case.testfile
        t.worker_id (fs0 i)
    match pyDiv ((completed : ℚ) + 1) (total : ℚ) with
    | none => none
    | some p =>
      match runCompleted lang jarExists exeExists env fs0 tasks total rest
          (completed + 1) with
      | none => none
      | some (res, cbs, procs) =>
          some ((t.case, out.1) :: res,
                (t.case, out.1, p * 100) :: cbs, out.2.2 + procs)

/-- `CompilerTester.test_parallel`: if the compiler artifact is missing,
short-circuits to a Skipped result per case with no executor, no callback
and no process; otherwise pre-assigns slots round-robin, computes the
ramp-up admission interval exactly as the code does (`ramp_up_time / total
if total > 0 else 0`, only when `total >= ramp_up_threshold`), and collects
results and callbacks in completion order.  Returns `none` only if a
division fails. -/
def test_parallel (lang : String) (jarExists exeExists : Bool)
    (env : Nat → CaseEnv) (fs0 : Nat → FS) (cases : List TestCase)
    (max_workers : Nat) (order : List Nat)
    (ramp_up_time : ℚ := 5) (ramp_up_threshold : Nat := 64) :
    Option (List (TestCase × TestResult) × List (TestCase × TestResult × ℚ) × Nat) :=
  if !(isCompilerReady lang jarExists exeExists) then
    some (cases.map (fun c => (c, mkRes .skipped "请先编译项目")), [], 0)
  else
    let total := cases.length
    let tasks := mkTasks cases max_workers
    let interval? : Option ℚ :=
      if total ≥ ramp_up_threshold then
        if total > 0 then pyDiv ramp_up_time (total : ℚ) else some 0
      else some 0
    match interval? with
    | none => none
    | some _ =>
        runCompleted lang jarExists exeExists env fs0 tasks total order 0

/-- The admission interval of the ramp-up branch:
`interval = ramp_up_time / total if total > 0 else 0`. -/
def rampInterval (ramp_up_time : ℚ) (total : Nat) : ℚ :=
  if total > 0 then ramp_up_time / total else 0

/-- Submission time offsets of the `test_parallel` submit loop: below the
threshold all tasks are submitted immediately (time 0); at or above it,
submission `i` happens after `i` sleeps of `interval` seconds
(`time.sleep(interval)` after every submission but the last). -/
def submissionTimes (n : Nat) (ramp_up_time : ℚ) (ramp_up_threshold : Nat) :
    List ℚ :=
  if n ≥ ramp_up_threshold then
    (List.range n).map (fun (i : Nat) => (i : ℚ) * rampInterval ramp_up_time n)
  else
    (List.range n).map (fun _ => 0)

/-! ## Thread-pool execution traces

`test_parallel` submits its tasks, in index order, to a
`ThreadPoolExecutor(max_workers=k)`: a pool of `k` worker threads that all
pull from one shared FIFO queue.  A task therefore starts whenever fewer
than `k` tasks are running and all earlier tasks have started; it is NOT
bound to a fixed thread.  The possible interleavings are captured as event
traces. -/

/-- A scheduling event: task `i` starts running, or finishes. -/
inductive SchedEvent where
  | start (i : Nat)
  | finish (i : Nat)
deriving DecidableEq, Repr

/-- Scheduler state: the FIFO queue of not-yet-started tasks and the set of
currently running tasks. -/
structure SchedState where
  queue : List Nat
  running : List Nat
deriving DecidableEq, Repr

/-- One legal step of `ThreadPoolExecutor(max_workers=k)`: the head of the
FIFO queue may start when fewer than `k` tasks run; any running task may
finish. -/
def schedStep (k : Nat) (s : SchedState) : SchedEvent → Option SchedState
  | .start i =>
    match s.queue with
    | [] => none
    | j :: rest =>
        if j = i ∧ s.running.length < k then some ⟨rest, i :: s.running⟩
        else none
  | .finish i =>
    if i ∈ s.running then some ⟨s.queue, s.running.erase i⟩ else none

/-- A trace is valid from state `s` if every event is a legal step and the
trace ends with all tasks finished. -/
def validTraceFrom (k : Nat) (s : SchedState) : List SchedEvent → Bool
  | [] => s.queue.isEmpty && s.running.isEmpty
  | e :: tr =>
    match schedStep k s e with
    | some s2 => validTraceFrom k s2 tr
    | none => false

/-- A complete execution of `n` tasks on a pool of `k` worker threads. -/
def ValidTrace (k n : Nat) (tr : List SchedEvent) : Bool :=
  validTraceFrom k ⟨List.range n, []⟩ tr

/-- Index of the first occurrence of event `e` in the trace. -/
def idxOf (tr : List SchedEvent) (e : SchedEvent) : Nat :=
  tr.findIdx (fun x => x == e)

/-- Task `j` starts while task `i` is mid-pipeline: `start j` occurs
strictly between `start i` and `finish i`. -/
def startsDuring (tr : List SchedEvent) (i j : Nat) : Bool :=
  decide (idxOf tr (.start i) < idxOf tr (.start j)) &&
  decide (idxOf tr (.start j) < idxOf tr (.finish i))

/-! ## Helper lemmas -/

theorem FS.has_remove_of_has_eq_false {fs : FS} {p : String} (q : String)
    (h : fs.has p = false) : (fs.remove q).has p = false := by
  cases hr : (fs.remove q).has p with
  | false => rfl
  | true => rw [FS.has_remove_mono hr] at h; exact h.symm ▸ rfl

theorem prepFS_has_mips_false (fs : FS) (wd : String) :
    (prepFS fs wd).has (mipsPath wd) = false := by
  unfold prepFS
  cases h : (fs.write (testfilePath wd)).has (mipsPath wd) with
  | true => simp only [if_pos rfl, h, if_true, FS.has_remove_self]
  | false => simp only [h, if_false, Bool.false_eq_true]

theorem run_compiler_ready (lang : String) (jar exe : Bool)
    (stage : CompilerStage) (wd : String) (fs : FS)
    (hready : isCompilerReady lang jar exe = true) :
    run_compiler lang jar exe stage wd fs
      = runCompilerProc stage wd (prepFS fs wd) := by
  unfold run_compiler
  unfold isCompilerReady at hready
  cases hl : (lang == "java") with
  | true =>
    rw [hl] at hready
    simp only [if_true] at hready
    simp [hl, hready]
  | false =>
    rw [hl] at hready
    simp only [Bool.false_eq_true, if_false] at hready
    simp [hl, hready]

/-! ## Claim theorems -/

/-- C6: the comparator satisfies `equal(a,b) = (normalize(a) ==
normalize(b))`, `normalize` is idempotent, and consequently `equal` is
reflexive and symmetric. -/
theorem C6_comparator_algebra :
    (∀ a b : String,
      compare_outputs a b = (normalize_output a == normalize_output b)) ∧
    (∀ s : String,
      normalize_output (normalize_output s) = normalize_output s) ∧
    (∀ a : String, compare_outputs a a = true) ∧
    (∀ a b : String, compare_outputs a b = compare_outputs b a) :=
  ⟨fun _ _ => rfl, normalize_output_idem, compare_outputs_refl,
    compare_outputs_symm⟩

/-- C8: on every exit path of the reference stage (`_run_gcc`), the
temporary reference source `tmp_test.c` and the temporary executable
`tmp_test.exe` are absent from the slot directory afterwards, whatever the
compile/run outcomes and the initial slot contents were. -/
theorem C8_run_gcc_cleanup (stage : GccStage) (wd : String) (fs : FS) :
    ((run_gcc stage wd fs).2.1).has (tmpSrcPath wd) = false ∧
    ((run_gcc stage wd fs).2.1).has (tmpExePath wd) = false :=
  ⟨FS.has_remove_of_has_eq_false _ (FS.has_remove_self _ _),
   FS.has_remove_self _ _⟩

/-- C9: `_run_compiler` deletes any stale `mips.txt` before launching the
candidate compiler, so if the current invocation does not itself produce
`mips.txt` the stage fails (hence a success always hands a
freshly-produced assembly file to the simulator), and no stale `mips.txt`
survives — for every initial slot state, including one holding a previous
occupant's assembly file. -/
theorem C9_no_inherited_assembly (lang : String) (jar exe : Bool)
    (stage : CompilerStage) (wd : String) (fs : FS)
    (h : stage.writesMips = false) :
    (run_compiler lang jar exe stage wd fs).1.1 = false ∧
    ((run_compiler lang jar exe stage wd fs).2.1).has (mipsPath wd) = false := by
  have hmips := prepFS_has_mips_false fs wd
  unfold run_compiler runCompilerProc
  rw [h]
  cases hl : (lang == "java") with
  | true =>
    cases jar with
    | false => simpa [hl] using hmips
    | true =>
      simp only [hl, if_true, Bool.not_true, Bool.false_eq_true, if_false]
      cases stage.proc with
      | completed rc out err =>
        by_cases hrc : rc ≠ 0
        · simp [hrc, hmips]
        · simp [hrc, hmips]
      | timedOut => simp [hmips]
      | fileNotFound f => simp [hmips]
      | failed m => simp [hmips]
  | false =>
    cases exe with
    | false => simpa [hl] using hmips
    | true =>
      simp only [hl, Bool.false_eq_true, if_false, Bool.not_true]
      cases stage.proc with
      | completed rc out err =>
        by_cases hrc : rc ≠ 0
        · simp [hrc, hmips]
        · simp [hrc, hmips]
      | timedOut => simp [hmips]
      | fileNotFound f => simp [hmips]
      | failed m => simp [hmips]

/-- Witness for C9: a slot still holding the previous occupant's
`mips.txt`, a compiler invocation that exits 0 but writes nothing: the
stage reports failure and the stale assembly file is gone. -/
theorem C9_no_inherited_assembly_witness :
    (⟨ProcResult.completed 0 "" "", false⟩ : CompilerStage).writesMips = false ∧
    (run_compiler "java" true true ⟨ProcResult.completed 0 "" "", false⟩
        (workerDir 0) [mipsPath (workerDir 0)]).1.1 = false ∧
    ((run_compiler "java" true true ⟨ProcResult.completed 0 "" "", false⟩
        (workerDir 0) [mipsPath (workerDir 0)]).2.1).has
        (mipsPath (workerDir 0)) = false :=
  ⟨rfl,
    (C9_no_inherited_assembly "java" true true
      ⟨ProcResult.completed 0 "" "", false⟩ (workerDir 0)
      [mipsPath (workerDir 0)] rfl).1,
    (C9_no_inherited_assembly "java" true true
      ⟨ProcResult.completed 0 "" "", false⟩ (workerDir 0)
      [mipsPath (workerDir 0)] rfl).2⟩

/-- A concrete benign per-case oracle, used by witnesses. -/
def okCaseEnv : CaseEnv :=
  ⟨true, ⟨.completed 0 "" "", true⟩, .completed 0 "5\n" "",
    ⟨.completed 0 "" "", true, .completed 0 "5\n" ""⟩⟩

/-- Three concrete test cases, used by witnesses. -/
def threeCases : List TestCase :=
  [⟨"A", "testcase/A/testfile.txt", none⟩,
   ⟨"B", "testcase/B/testfile.txt", none⟩,
   ⟨"C", "testcase/C/testfile.txt", none⟩]

/-- C2: with no build artifact for the configured language,
`test_parallel` short-circuits every case to a Skipped result, fires no
callback, and spawns zero external processes. -/
theorem C2_no_artifact_all_skipped (lang : String) (jar exe : Bool)
    (env : Nat → CaseEnv) (fs0 : Nat → FS) (cases : List TestCase)
    (mw : Nat) (order : List Nat) (T : ℚ) (th : Nat)
    (h : isCompilerReady lang jar exe = false) :
    test_parallel lang jar exe env fs0 cases mw order T th
      = some (cases.map (fun c => (c, mkRes .skipped "请先编译项目")), [], 0) := by
  simp [test_parallel, h]

/-- Witness for C2: a Java project whose `Compiler.jar` is absent; on the
3-case suite the run yields exactly 3 Skipped results, no callback, and a
process count of zero. -/
theorem C2_no_artifact_all_skipped_witness :
    isCompilerReady "java" false true = false ∧
    test_parallel "java" false true (fun _ => okCaseEnv) (fun _ => [])
        threeCases 4 [0, 1, 2] 5 64
      = some ([(⟨"A", "testcase/A/testfile.txt", none⟩,
                 mkRes .skipped "请先编译项目"),
               (⟨"B", "testcase/B/testfile.txt", none⟩,
                 mkRes .skipped "请先编译项目"),
               (⟨"C", "testcase/C/testfile.txt", none⟩,
                 mkRes .skipped "请先编译项目")], [], 0) := by
  refine ⟨rfl, ?_⟩
  rw [C2_no_artifact_all_skipped "java" false true (fun _ => okCaseEnv)
    (fun _ => []) threeCases 4 [0, 1, 2] 5 64 rfl]
  rfl

/-- C10: with a build artifact present, running the suite on an empty case
list (whose completion order is necessarily empty) returns an empty result
list, fires no callback, spawns no process, and raises no error — in
particular the admission-interval computation is division-safe for every
threshold, including one that forces the ramp-up branch at `n = 0`. -/
theorem C10_empty_case_list (lang : String) (jar exe : Bool)
    (env : Nat → CaseEnv) (fs0 : Nat → FS) (mw : Nat) (order : List Nat)
    (T : ℚ) (th : Nat)
    (hready : isCompilerReady lang jar exe = true)
    (horder : order = []) :
    test_parallel lang jar exe env fs0 [] mw order T th
      = some ([], [], 0) := by
  subst horder
  unfold test_parallel
  rw [hready]
  simp only [Bool.not_true, Bool.false_eq_true, if_false]
  by_cases hth : (0 ≥ th)
  · simp [hth, runCompleted]
  · simp [hth, runCompleted]

/-- Witness for C10: artifact present, empty suite, threshold 0 (so the
ramp-up branch and its division guard are exercised at `n = 0`). -/
theorem C10_empty_case_list_witness :
    isCompilerReady "java" true false = true ∧
    test_parallel "java" true false (fun _ => okCaseEnv) (fun _ => [])
        [] 4 [] 5 0 = some ([], [], 0) :=
  ⟨rfl, C10_empty_case_list "java" true false (fun _ => okCaseEnv)
    (fun _ => []) 4 [] 5 0 rfl rfl⟩

/-- The counterexample schedule for C1: two pool threads, three cases. -/
def c1Trace : List SchedEvent :=
  [.start 0, .start 1, .finish 1, .start 2, .finish 0, .finish 2]

/-- C1: the round-robin pre-assignment does give cases 0 and 2 the same
slot (`worker_id = i % 2`), but `ThreadPoolExecutor` binds queued tasks to
whichever thread frees up first, not to slots: the trace in which case 1
finishes while case 0 is still running is a legal pool execution, and in
it case 2 starts — in slot 0 — while case 0 is still mid-pipeline in the
same slot directory.  The serialization part of the claim is false of the
code. -/
theorem C1_same_slot_tasks_can_overlap :
    (mkTasks threeCases 2).map (fun t => t.worker_id) = [0, 1, 0] ∧
    ValidTrace 2 3 c1Trace = true ∧
    startsDuring c1Trace 0 2 = true := by
  refine ⟨rfl, ?_, ?_⟩ <;> decide

theorem runCompilerProc_procs (stage : CompilerStage) (wd : String)
    (fs : FS) : (runCompilerProc stage wd fs).2.2 = 1 := by
  unfold runCompilerProc
  cases stage.proc with
  | completed rc out err =>
    by_cases hrc : rc ≠ 0
    · simp [hrc]
    · by_cases hm :
        ((if stage.writesMips then fs.write (mipsPath wd) else fs).has
          (mipsPath wd)) <;> simp [hrc, hm]
  | timedOut => rfl
  | fileNotFound f => rfl
  | failed m => rfl

theorem run_mars_procs (p : ProcResult) : (run_mars p).2 = 1 := by
  cases p <;> rfl

/-- C3: a pipeline result carries actual/expected outputs if and only if
its status is Failed — a Failed result holds both the simulator output and
the reference output, every other status holds neither. -/
theorem C3_outputs_iff_failed (lang : String) (jar exe : Bool)
    (ce : CaseEnv) (tf : String) (wid : Nat) (fs : FS) :
    (((test lang jar exe ce tf wid fs).1.actual_output ≠ none ∨
      (test lang jar exe ce tf wid fs).1.expected_output ≠ none) ↔
     (test lang jar exe ce tf wid fs).1.status = .failed) ∧
    ((test lang jar exe ce tf wid fs).1.status = .failed →
      (test lang jar exe ce tf wid fs).1.actual_output.isSome = true ∧
      (test lang jar exe ce tf wid fs).1.expected_output.isSome = true) := by
  unfold test
  dsimp only
  split
  · simp [mkRes]
  · split
    · simp [mkRes]
    · split
      · simp [mkRes]
      · split
        · simp [mkRes]
        · split
          · simp [mkRes]
          · split
            · simp [mkRes]
            · simp [mkRes]

/-- C4: stage failures map to statuses as the spec says: a candidate
compiler that exits non-zero, times out, or produces no `mips.txt` gives
CompileError (with the captured output in the message); a simulator launch
failure or timeout gives RuntimeError; a reference compile/run failure
gives Skipped (never Passed or Failed); and a failing stage short-circuits
the later stages (the process count stops at the failing stage, and the
result does not depend on the later stages' oracles). -/
theorem C4_stage_failure_mapping (lang : String) (jar exe : Bool)
    (ce : CaseEnv) (tf : String) (wid : Nat) (fs : FS)
    (htf : ce.testfileExists = true)
    (hready : isCompilerReady lang jar exe = true) :
    (∀ rc out err, ce.compiler.proc = .completed rc out err → rc ≠ 0 →
      (test lang jar exe ce tf wid fs).1
          = mkRes .compileError ("编译器错误:\n" ++ err ++ "\n" ++ out) ∧
      (test lang jar exe ce tf wid fs).2.2 = 1) ∧
    (ce.compiler.proc = .timedOut →
      (test lang jar exe ce tf wid fs).1 = mkRes .compileError "编译超时" ∧
      (test lang jar exe ce tf wid fs).2.2 = 1) ∧
    (∀ out err, ce.compiler.proc = .completed 0 out err →
      ce.compiler.writesMips = false →
      (test lang jar exe ce tf wid fs).1
          = mkRes .compileError "编译器未生成mips.txt" ∧
      (test lang jar exe ce tf wid fs).2.2 = 1) ∧
    ((run_compiler lang jar exe ce.compiler (workerDir wid) fs).1.1 = true →
      (run_mars ce.mars).1.1 = none →
      (test lang jar exe ce tf wid fs).1
          = mkRes .runtimeError ("Mars运行失败: " ++ (run_mars ce.mars).1.2) ∧
      (test lang jar exe ce tf wid fs).2.2 = 2) ∧
    ((run_compiler lang jar exe ce.compiler (workerDir wid) fs).1.1 = true →
      ∀ mo, (run_mars ce.mars).1.1 = some mo →
      (run_gcc ce.gcc (workerDir wid)
        (run_compiler lang jar exe ce.compiler (workerDir wid) fs).2.1).1.1
          = none →
      (test lang jar exe ce tf wid fs).1.status = .skipped ∧
      (test lang jar exe ce tf wid fs).1.status ≠ .passed ∧
      (test lang jar exe ce tf wid fs).1.status ≠ .failed) ∧
    ((run_compiler lang jar exe ce.compiler (workerDir wid) fs).1.1 = false →
      ∀ m g, test lang jar exe ⟨ce.testfileExists, ce.compiler, m, g⟩ tf wid fs
          = test lang jar exe ce tf wid fs) := by
  obtain ⟨tfe, comp, cmars, cgcc⟩ := ce
  simp only at htf
  subst htf
  have hrun := run_compiler_ready lang jar exe comp (workerDir wid) fs hready
  refine ⟨?_, ?_, ?_, ?_, ?_, ?_⟩
  · intro rc out err hproc hrc
    unfold test
    simp only [hready, Bool.not_true, Bool.false_eq_true, if_false]
    rw [hrun]
    unfold runCompilerProc
    rw [hproc]
    simp [hrc]
  · intro hproc
    unfold test
    simp only [hready, Bool.not_true, Bool.false_eq_true, if_false]
    rw [hrun]
    unfold runCompilerProc
    rw [hproc]
    simp
  · intro out err hproc hwm
    unfold test
    simp only [hready, Bool.not_true, Bool.false_eq_true, if_false]
    rw [hrun]
    unfold runCompilerProc
    rw [hproc, hwm]
    simp [prepFS_has_mips_false]
  · intro hok hmars
    have hn1 : (run_compiler lang jar exe comp (workerDir wid) fs).2.2 = 1 := by
      rw [hrun]; exact runCompilerProc_procs _ _ _
    unfold test
    simp only [hready, Bool.not_true, Bool.false_eq_true, if_false]
    rw [hok]
    simp only [Bool.not_true, Bool.false_eq_true, if_false]
    rw [show (run_mars cmars).1.1 = none from hmars] at *
    constructor
    · simp [hmars]
    · simp [hmars, hn1, run_mars_procs]
  · intro hok mo hmars hgcc
    unfold test
    simp only [hready, Bool.not_true, Bool.false_eq_true, if_false]
    rw [hok]
    simp only [Bool.not_true, Bool.false_eq_true, if_false]
    simp [hmars, hgcc, mkRes]
  · intro hfail m g
    unfold test
    simp only [hready, Bool.not_true, Bool.false_eq_true, if_false]
    rw [hfail]
    simp

/-- A per-case oracle whose candidate-compile stage times out. -/
def timeoutCaseEnv : CaseEnv :=
  ⟨true, ⟨.timedOut, false⟩, .completed 0 "" "",
    ⟨.completed 0 "" "", true, .completed 0 "" ""⟩⟩

/-- Witness for C4: a candidate compiler that times out yields
CompileError after exactly one process invocation. -/
theorem C4_stage_failure_mapping_witness :
    timeoutCaseEnv.testfileExists = true ∧
    isCompilerReady "java" true true = true ∧
    (test "java" true true timeoutCaseEnv "t.c" 0 []).1
        = mkRes .compileError "编译超时" ∧
    (test "java" true true timeoutCaseEnv "t.c" 0 []).2.2 = 1 := by
  have h := (C4_stage_failure_mapping "java" true true timeoutCaseEnv
    "t.c" 0 [] rfl rfl).2.1 rfl
  exact ⟨rfl, rfl, h.1, h.2⟩

theorem map_caseOf_range (cases : List TestCase) (mw : Nat) :
    (List.range cases.length).map
        (fun i => ((mkTasks cases mw).getD i dummyTask).case) = cases := by
  apply List.ext_getElem?
  intro j
  rw [List.getElem?_map]
  by_cases hj : j < cases.length
  · rw [List.getElem?_range hj]
    have ha : cases[j]? = some (cases.get ⟨j, hj⟩) := List.getElem?_eq_getElem hj
    simp only [Option.map_some']
    rw [List.getD_eq_getElem?_getD]
    unfold mkTasks
    rw [List.getElem?_map, List.getElem?_enum, ha]
    simp [ha]
  · have h1 : (List.range cases.length)[j]? = none := by
      rw [List.getElem?_eq_none_iff]
      simpa using Nat.le_of_not_lt hj
    have h2 : cases[j]? = none := by
      rw [List.getElem?_eq_none_iff]
      exact Nat.le_of_not_lt hj
    rw [h1, h2, Option.map_none']

theorem runCompleted_spec (lang : String) (jar exe : Bool)
    (env : Nat → CaseEnv) (fs0 : Nat → FS) (tasks : List TestTask)
    (total : Nat) (ht : total ≠ 0) :
    ∀ (order : List Nat) (c : Nat),
      ∃ res cbs procs,
        runCompleted lang jar exe env fs0 tasks total order c
          = some (res, cbs, procs) ∧
        cbs.map (fun x => x.1)
          = order.map (fun i => (tasks.getD i dummyTask).case) ∧
        cbs.map (fun x => x.2.2)
          = (List.range order.length).map
              (fun (j : Nat) => ((c : ℚ) + (j : ℚ) + 1) / (total : ℚ) * 100)
  | [], c => ⟨[], [], 0, rfl, rfl, rfl⟩
  | i :: rest, c => by
    obtain ⟨res, cbs, procs, hrec, h1, h2⟩ :=
      runCompleted_spec lang jar exe env fs0 tasks total ht rest (c + 1)
    have htQ : (total : ℚ) ≠ 0 := Nat.cast_ne_zero.mpr ht
    unfold runCompleted
    rw [show pyDiv ((c : ℚ) + 1) (total : ℚ)
        = some (((c : ℚ) + 1) / (total : ℚ)) from by simp [pyDiv, htQ]]
    dsimp only
    rw [hrec]
    refine ⟨_, _, _, rfl, ?_, ?_⟩
    · simp only [List.map_cons, h1]
    · simp only [List.map_cons, List.length_cons, h2,
        List.range_succ_eq_map, List.map_map]
      congr 1
      · push_cast
        ring
      · apply List.map_congr_left
        intro j _
        simp only [Function.comp_apply]
        push_cast
        ring

/-- C5: with the artifact present, on a non-empty suite whose futures
complete in some order `order` (a permutation of the task indices), the
callback stream has exactly one entry per case, listed in completion
order; its progress values are non-decreasing and the final one is
exactly 100. -/
theorem C5_callback_stream (lang : String) (jar exe : Bool)
    (env : Nat → CaseEnv) (fs0 : Nat → FS) (cases : List TestCase)
    (mw : Nat) (order : List Nat) (T : ℚ) (th : Nat)
    (hready : isCompilerReady lang jar exe = true)
    (horder : order.Perm (List.range cases.length))
    (hne : cases ≠ []) :
    ∃ res cbs procs,
      test_parallel lang jar exe env fs0 cases mw order T th
        = some (res, cbs, procs) ∧
      cbs.length = cases.length ∧
      (cbs.map (fun x => x.1)).Perm cases ∧
      cbs.map (fun x => x.1)
        = order.map (fun i => ((mkTasks cases mw).getD i dummyTask).case) ∧
      List.Chain' (fun a b => a ≤ b) (cbs.map (fun x => x.2.2)) ∧
      (cbs.map (fun x => x.2.2)).getLast? = some 100 := by
  have htot : cases.length ≠ 0 := fun h0 => hne (List.length_eq_zero.mp h0)
  have htQ : (cases.length : ℚ) ≠ 0 := Nat.cast_ne_zero.mpr htot
  have htQpos : (0 : ℚ) < (cases.length : ℚ) := by
    have := Nat.pos_of_ne_zero htot
    exact_mod_cast this
  obtain ⟨res, cbs, procs, hrec, h1, h2⟩ :=
    runCompleted_spec lang jar exe env fs0 (mkTasks cases mw)
      cases.length htot order 0
  have hlen : order.length = cases.length := by
    have h := horder.length_eq
    rwa [List.length_range] at h
  refine ⟨res, cbs, procs, ?_, ?_, ?_, h1, ?_, ?_⟩
  · unfold test_parallel
    rw [hready]
    simp only [Bool.not_true, Bool.false_eq_true, if_false]
    by_cases hth : cases.length ≥ th
    · rw [if_pos hth, if_pos (Nat.pos_of_ne_zero htot)]
      rw [show pyDiv T (cases.length : ℚ)
          = some (T / (cases.length : ℚ)) from by simp [pyDiv, htQ]]
      exact hrec
    · rw [if_neg hth]
      exact hrec
  · have := congrArg List.length h1
    simpa [hlen] using this
  · rw [h1]
    have hp := horder.map (fun i => ((mkTasks cases mw).getD i dummyTask).case)
    rwa [map_caseOf_range cases mw] at hp
  · rw [h2]
    refine ((List.pairwise_lt_range _).map _ ?_).chain'
    intro a b hab
    have hab' : (a : ℚ) ≤ (b : ℚ) := by exact_mod_cast Nat.le_of_lt hab
    have h100 : (0 : ℚ) ≤ 100 := by norm_num
    apply mul_le_mul_of_nonneg_right _ h100
    apply div_le_div_of_nonneg_right ?_ htQpos.le
    linarith
  · rw [h2, hlen]
    obtain ⟨k, hk⟩ := Nat.exists_eq_succ_of_ne_zero htot
    rw [hk, List.range_succ, List.map_append]
    simp only [List.map_cons, List.map_nil]
    rw [List.getLast?_concat]
    congr 1
    have hk1 : ((k : ℚ) + 1) ≠ 0 := by positivity
    push_cast
    field_simp

/-- Witness for C5: three cases on two slots, futures completing in the
order 1, 0, 2. -/
theorem C5_callback_stream_witness :
    isCompilerReady "java" true true = true ∧
    ([1, 0, 2] : List Nat).Perm (List.range threeCases.length) ∧
    threeCases ≠ [] ∧
    (∃ res cbs procs,
      test_parallel "java" true true (fun _ => okCaseEnv) (fun _ => [])
          threeCases 2 [1, 0, 2] 5 64 = some (res, cbs, procs) ∧
      cbs.length = threeCases.length ∧
      (cbs.map (fun x => x.1)).Perm threeCases ∧
      cbs.map (fun x => x.1)
        = ([1, 0, 2] : List Nat).map
            (fun i => ((mkTasks threeCases 2).getD i dummyTask).case) ∧
      List.Chain' (fun a b => a ≤ b) (cbs.map (fun x => x.2.2)) ∧
      (cbs.map (fun x => x.2.2)).getLast? = some 100) :=
  ⟨rfl, by decide, by decide,
    C5_callback_stream "java" true true (fun _ => okCaseEnv) (fun _ => [])
      threeCases 2 [1, 0, 2] 5 64 rfl (by decide) (by decide)⟩

/-- C7: below the case-count threshold every task is submitted at time 0;
at or above it, the `i`-th task is submitted at `i * (T/n)` — successive
submissions are separated by the constant interval `T/n` and all
submission times lie within the configured ramp-up window `[0, T]`. -/
theorem C7_ramp_up_admission (n : Nat) (T : ℚ) (th : Nat) (hT : 0 ≤ T) :
    (n < th → submissionTimes n T th = List.replicate n 0) ∧
    (th ≤ n → 0 < n →
      submissionTimes n T th
          = (List.range n).map (fun (i : Nat) => (i : ℚ) * (T / (n : ℚ))) ∧
      List.Chain' (fun a b => b - a = T / (n : ℚ)) (submissionTimes n T th) ∧
      (∀ t ∈ submissionTimes n T th, 0 ≤ t ∧ t ≤ T)) := by
  constructor
  · intro h
    unfold submissionTimes
    rw [if_neg (by omega)]
    apply List.eq_replicate_iff.mpr
    constructor
    · simp
    · intro b hb
      simp only [List.mem_map] at hb
      obtain ⟨i, _, hib⟩ := hb
      exact hib.symm
  · intro hth hn
    have he : submissionTimes n T th
        = (List.range n).map (fun (i : Nat) => (i : ℚ) * (T / (n : ℚ))) := by
      unfold submissionTimes rampInterval
      rw [if_pos hth, if_pos hn]
    have hdivnn : (0 : ℚ) ≤ T / (n : ℚ) := by
      apply div_nonneg hT
      positivity
    refine ⟨he, ?_, ?_⟩
    · rw [he, List.chain'_map]
      obtain ⟨k, rfl⟩ := Nat.exists_eq_succ_of_ne_zero (Nat.pos_iff_ne_zero.mp hn)
      rw [List.chain'_range_succ]
      intro m _
      push_cast
      ring
    · intro t ht
      rw [he] at ht
      simp only [List.mem_map, List.mem_range] at ht
      obtain ⟨i, hi, rfl⟩ := ht
      constructor
      · apply mul_nonneg _ hdivnn
        positivity
      · have hin : (i : ℚ) ≤ (n : ℚ) := by exact_mod_cast Nat.le_of_lt hi
        have hnn : (n : ℚ) ≠ 0 := by
          exact_mod_cast Nat.pos_iff_ne_zero.mp hn
        have hcancel : (n : ℚ) * (T / (n : ℚ)) = T := by field_simp
        calc (i : ℚ) * (T / (n : ℚ))
            ≤ (n : ℚ) * (T / (n : ℚ)) :=
              mul_le_mul_of_nonneg_right hin hdivnn
          _ = T := hcancel

/-- Witness for C7: a 2-case suite at a threshold of 2 admits its tasks at
times 0 and 5/2, evenly spread across the 5-second window. -/
theorem C7_ramp_up_admission_witness :
    (0 : ℚ) ≤ 5 ∧ submissionTimes 2 5 2 = [0, 5 / 2] := by
  refine ⟨by norm_num, ?_⟩
  have h := ((C7_ramp_up_admission 2 5 2 (by norm_num)).2
    (le_refl 2) (by norm_num)).1
  rw [h]
  norm_num [List.range_succ]

/-- A per-case oracle where the simulator prints `"5\n"` but the reference
prints `"6\n"` (the spec's Scenario C). -/
def mismatchCaseEnv : CaseEnv :=
  ⟨true, ⟨.completed 0 "" "", true⟩, .completed 0 "5\n" "",
    ⟨.completed 0 "" "", true, .completed 0 "6\n" ""⟩⟩

/-- Witness for C3, at the spec's Scenario C: the result is Failed and
carries `actual_output = "5\n"`, `expected_output = "6\n"`. -/
theorem C3_outputs_iff_failed_witness :
    ((((test "java" true true mismatchCaseEnv "t.c" 0 []).1.actual_output
          ≠ none ∨
       (test "java" true true mismatchCaseEnv "t.c" 0 []).1.expected_output
          ≠ none) ↔
      (test "java" true true mismatchCaseEnv "t.c" 0 []).1.status
          = .failed) ∧
     ((test "java" true true mismatchCaseEnv "t.c" 0 []).1.status = .failed →
       (test "java" true true mismatchCaseEnv "t.c" 0 []).1.actual_output.isSome
          = true ∧
       (test "java" true true mismatchCaseEnv "t.c" 0 []).1.expected_output.isSome
          = true)) ∧
    (test "java" true true mismatchCaseEnv "t.c" 0 []).1
        = { status := .failed, message := "输出不匹配",
            actual_output := some "5\n", expected_output := some "6\n" } :=
  ⟨C3_outputs_iff_failed "java" true true mismatchCaseEnv "t.c" 0 [],
    by decide⟩

end SysYTest
